import Mathlib

/-!
# Cost Manager Front End — verification of the storage and reporting core

Shallow embedding of `src/services/idb.js`, `src/services/exchange.js` and the
vanilla `idb.js` variant.  JavaScript numbers are modelled as exact rationals
(`ℚ`), timestamps as minutes since the Unix epoch (`Int`), and the host
environment's (fixed) UTC offset as an explicit `tz : Int` parameter in
minutes, because `Date.prototype.getFullYear/getMonth/getDate` read the local
calendar.  Fallible operations return `Except`.
-/

namespace CostManager

/-! ## Calendar model of the JavaScript `Date` runtime -/

/-- Civil (proleptic Gregorian) date from a count of days since 1970-01-01,
the algorithm used by real date libraries; returns `(year, month 1-12, day)`.
All divisions are C-style truncating divisions on non-negative operands. -/
def civilFromDays (z0 : Int) : Int × Int × Int :=
  let z := z0 + 719468
  let era : Int := (if 0 ≤ z then z else z - 146096) / 146097
  let doe : Int := z - era * 146097
  let yoe : Int := (doe - doe / 1460 + doe / 36524 - doe / 146096) / 365
  let y : Int := yoe + era * 400
  let doy : Int := doe - (365 * yoe + yoe / 4 - yoe / 100)
  let mp : Int := (5 * doy + 2) / 153
  let d : Int := doy - (153 * mp + 2) / 5 + 1
  let m : Int := mp + (if mp < 10 then 3 else -9)
  (y + (if m ≤ 2 then 1 else 0), m, d)

/-- Days since 1970-01-01 of a civil `(year, month 1-12, day)` date;
inverse of `civilFromDays`. -/
def daysFromCivil (y0 m d : Int) : Int :=
  let y : Int := y0 - (if m ≤ 2 then 1 else 0)
  let era : Int := (if 0 ≤ y then y else y - 399) / 400
  let yoe : Int := y - era * 400
  let doy : Int := (153 * (m + (if 2 < m then -3 else 9)) + 2) / 5 + d - 1
  let doe : Int := yoe * 365 + yoe / 4 - yoe / 100 + doy
  era * 146097 + doe - 719468

/-- Timestamp (minutes since the Unix epoch) of a UTC wall-clock instant. -/
def mkUTC (y m d hh mi : Int) : Int :=
  daysFromCivil y m d * 1440 + hh * 60 + mi

/-- The epoch day of timestamp `ts` seen in an environment `tz` minutes
east of UTC (floor division, as local time of instants before the local
epoch has a negative day number). -/
def localEpochDay (tz ts : Int) : Int :=
  Int.fdiv (ts + tz) 1440

/-- `Date.prototype.getFullYear()` in a fixed-offset environment `tz`. -/
def getFullYear (tz ts : Int) : Int := (civilFromDays (localEpochDay tz ts)).1

/-- `Date.prototype.getMonth()` (0-based month) in environment `tz`. -/
def getMonth (tz ts : Int) : Int := (civilFromDays (localEpochDay tz ts)).2.1 - 1

/-- `Date.prototype.getDate()` (day of month) in environment `tz`. -/
def getDate (tz ts : Int) : Int := (civilFromDays (localEpochDay tz ts)).2.2

/-- `Date.UTC` maps year arguments 0–99 to 1900–1999. -/
def jsUtcYearAdjust (y : Int) : Int :=
  if 0 ≤ y ∧ y ≤ 99 then y + 1900 else y

/-- Decimal digits of `n` left-padded with zeros to width `w`. -/
def padTo (w : Nat) (n : Nat) : String :=
  let s := Nat.repr n
  String.mk (List.replicate (w - s.length) '0') ++ s

/-- `new Date(Date.UTC(y, m-1, d)).toISOString().slice(0, 10)` for an
already-normalized civil triple: four-digit years print as `YYYY-MM-DD`;
out-of-range years use the expanded `±YYYYYY` form, of which `slice`
keeps the first ten characters. -/
def isoSlice10 (y m d : Int) : String :=
  let yStr :=
    if y < 0 then "-" ++ padTo 6 (-y).toNat
    else if y ≤ 9999 then padTo 4 y.toNat
    else "+" ++ padTo 6 y.toNat
  (yStr ++ "-" ++ padTo 2 m.toNat ++ "-" ++ padTo 2 d.toNat).take 10

/-! ## Data model (`src/services/idb.js`) -/

/-- A persisted cost record: the stored object of the `costs` object store.
`date` is the stamped `new Date()` timestamp, `id` the auto-increment key
injected by the store. -/
structure CostRecord where
  id : Nat
  sum : ℚ
  currency : String
  category : String
  description : String
  date : Int
deriving DecidableEq

/-- The caller-supplied payload of `addCost`. -/
structure CostPayload where
  sum : ℚ
  currency : String
  category : String
  description : String
deriving DecidableEq

/-- The object `addCost` resolves with.  `id : Option Nat` models the
presence or absence of the JavaScript `id` property (`none` = `undefined`):
IndexedDB injects the generated key into the structured clone it stores,
not into the caller's object. -/
structure ResolvedCost where
  id : Option Nat
  sum : ℚ
  currency : String
  category : String
  description : String
  date : Int
deriving DecidableEq

/-- The `costs` object store: its records plus the auto-increment key
generator (next key to assign). -/
structure CostsStore where
  records : List CostRecord
  nextId : Nat
deriving DecidableEq

/-- A line item of the module-version report: `date` is the ISO
`YYYY-MM-DD` string. -/
structure LineItem where
  sum : ℚ
  currency : String
  category : String
  description : String
  date : String
deriving DecidableEq

/-- The `total` object of a report. -/
structure ReportTotal where
  currency : String
  total : ℚ
deriving DecidableEq

/-- The module-version report returned by `getReport`. -/
structure Report where
  year : Int
  month : Int
  costs : List LineItem
  total : ReportTotal
deriving DecidableEq

/-- A line item of the vanilla-version report: the JS object carries
`Date: { day }`; we model the nested object by its single field. -/
structure VanLineItem where
  sum : ℚ
  currency : String
  category : String
  description : String
  day : Int
deriving DecidableEq

/-- The vanilla-version report. -/
structure VanReport where
  year : Int
  month : Int
  costs : List VanLineItem
  total : ReportTotal
deriving DecidableEq

/-- An exchange-rates map `{ currency: rate }`; association list with
first-match lookup (JS objects have no duplicate keys). -/
abbrev RateTable := List (String × ℚ)

/-- `x || 1` applied to the result of a rate lookup: an absent property
(`undefined`) and the falsy number `0` both yield `1`. -/
def orOne (o : Option ℚ) : ℚ :=
  match o with
  | some r => if r = 0 then 1 else r
  | none => 1

/-- `Math.round(x * 100) / 100`: JavaScript `Math.round` is
`⌊x + 1/2⌋` (half-up, ties toward `+∞`). -/
def round2 (x : ℚ) : ℚ :=
  ((x * 100 + 1/2).floor : ℚ) / 100

/-- The period filter of both `getReport` variants:
`d.getFullYear() === year && d.getMonth() + 1 === month`. -/
def periodMatches (tz year month : Int) (item : CostRecord) : Bool :=
  getFullYear tz item.date == year && getMonth tz item.date + 1 == month

/-- The module version's line-item mapping: original fields plus
`new Date(Date.UTC(d.getFullYear(), d.getMonth(), d.getDate()))
.toISOString().slice(0, 10)`. -/
def lineOf (tz : Int) (item : CostRecord) : LineItem :=
  { sum := item.sum
    currency := item.currency
    category := item.category
    description := item.description
    date := isoSlice10 (jsUtcYearAdjust (getFullYear tz item.date))
      (getMonth tz item.date + 1) (getDate tz item.date) }

/-- The vanilla version's line-item mapping: original fields plus
`Date: { day: new Date(item.date).getDate() }`. -/
def vanLineOf (tz : Int) (item : CostRecord) : VanLineItem :=
  { sum := item.sum
    currency := item.currency
    category := item.category
    description := item.description
    day := getDate tz item.date }

/-- `getReport` of `src/services/idb.js`, with the `store.getAll()`
result passed in as `records` and the environment offset as `tz`.
Source defaults: `targetCurrency = 'USD'`, `exchangeRates = { USD: 1 }`. -/
def getReport (tz : Int) (records : List CostRecord) (year month : Int)
    (targetCurrency : String) (exchangeRates : RateTable) : Report :=
  let filteredCosts := records.filter (periodMatches tz year month)
  let costsWithDate := filteredCosts.map (lineOf tz)
  let totalUSD := filteredCosts.foldl
    (fun acc item => acc + item.sum / orOne (List.lookup item.currency exchangeRates)) 0
  let convertedTotal := totalUSD * orOne (List.lookup targetCurrency exchangeRates)
  { year := year
    month := month
    costs := costsWithDate
    total := { currency := targetCurrency, total := round2 convertedTotal } }

/-- `getReport` of the vanilla `idb.js` (`window.idb.getReport`): same
filter and total, line items carry only a day-of-month. -/
def vanillaGetReport (tz : Int) (records : List CostRecord) (year month : Int)
    (currency : String) (exchangeRates : RateTable) : VanReport :=
  let filtered := records.filter (periodMatches tz year month)
  let costs := filtered.map (vanLineOf tz)
  let totalUSD := filtered.foldl
    (fun acc item => acc + item.sum / orOne (List.lookup item.currency exchangeRates)) 0
  let converted := totalUSD * orOne (List.lookup currency exchangeRates)
  { year := year
    month := month
    costs := costs
    total := { currency := currency, total := round2 converted } }

/-- `addCost`: stamps `date = new Date()` (`now`), persists the item in the
`costs` store — where the auto-increment key generator injects
`id = nextId` into the stored clone — and resolves with the caller-side
`item` object, which never receives the generated key. -/
def addCost (now : Int) (cost : CostPayload) (s : CostsStore) :
    CostsStore × ResolvedCost :=
  let stored : CostRecord :=
    { id := s.nextId
      sum := cost.sum
      currency := cost.currency
      category := cost.category
      description := cost.description
      date := now }
  let item : ResolvedCost :=
    { id := none
      sum := cost.sum
      currency := cost.currency
      category := cost.category
      description := cost.description
      date := now }
  ({ records := s.records ++ [stored], nextId := s.nextId + 1 }, item)

/-- `clearAll`: `store.clear()` deletes every record; the key generator is
not reset by a clear. -/
def clearAll (s : CostsStore) : CostsStore :=
  { s with records := [] }

/-! ## IndexedDB open/delete model (`openCostsDB`, `deleteDB`)

The environment entry for one database name: `Option Database` is the
state stored under that name (`none` = absent).  On a successful open the
entry becomes `some` of the returned database. -/

/-- A database: persisted version, object-store names, and the single
`costs` store (if created). -/
structure Database where
  version : Nat
  storeNames : List String
  costs : Option CostsStore
deriving DecidableEq

/-- Failures of `indexedDB.open`. -/
inductive OpenError where
  /-- `open` with version 0 throws a `TypeError`. -/
  | badVersion
  /-- requested version below the persisted version. -/
  | versionError
deriving DecidableEq

/-- The `onupgradeneeded` handler of both `openCostsDB` variants: create
the `costs` object store (auto-increment key on `id`, index on `date`)
only if `db.objectStoreNames` does not already contain it. -/
def runUpgrade (db : Database) (newVersion : Nat) : Database :=
  let db := { db with version := newVersion }
  if db.storeNames.contains "costs" then db
  else { db with storeNames := db.storeNames ++ ["costs"], costs := some ⟨[], 1⟩ }

/-- `openCostsDB(name, version)`: `slot` is the environment's entry for
`name`.  Absent → create at `version` running the upgrade handler; same
version → plain open, no upgrade; lower persisted version → upgrade;
higher persisted version → `VersionError`. -/
def openCostsDB (name : String) (version : Nat) (slot : Option Database) :
    Except OpenError Database :=
  if version = 0 then .error .badVersion
  else
    match slot with
    | none => .ok (runUpgrade { version := 0, storeNames := [], costs := none } version)
    | some db =>
      if version < db.version then .error .versionError
      else if version = db.version then .ok db
      else .ok (runUpgrade db version)

/-- Failures of `deleteDB`. -/
inductive DeleteError where
  /-- `onblocked` fired: another open connection to the database. -/
  | blocked
deriving DecidableEq

/-- `deleteDB(name)`: when `otherConnections` open handles to the database
exist, the delete request is blocked and the promise rejects; otherwise the
entry is removed.  Returns the outcome paired with the entry afterwards. -/
def deleteDB (name : String) (otherConnections : Nat) (slot : Option Database) :
    Except DeleteError Unit × Option Database :=
  if 0 < otherConnections then (.error .blocked, slot)
  else (.ok (), none)

/-! ## Exchange-rate fetching (`src/services/exchange.js`) -/

/-- A JSON value as far as `typeof v === 'number'` can distinguish it. -/
inductive JsonVal where
  | num (q : ℚ)
  | str (s : String)
  | boolVal (b : Bool)
  | nullVal
deriving DecidableEq

/-- The parsed response body: a JS object, association list with
first-match lookup. -/
abbrev RatesJson := List (String × JsonVal)

/-- `SUPPORTED_CURRENCIES`. -/
def supportedCurrencies : List String := ["USD", "ILS", "GBP", "EURO"]

/-- Rejection reasons of `fetchRates`. -/
inductive RatesError where
  /-- `ERR_NO_URL`: no exchange-rates URL set in Settings. -/
  | noRateSource
  /-- `ERR_FETCH_FAIL` with the HTTP status. -/
  | fetchFailed (status : Nat)
  /-- `Missing/invalid rate: k`. -/
  | invalidRateData (k : String)
deriving DecidableEq

/-- The outcome of `fetch(url)`: an ok response with parsed JSON, or a
non-ok HTTP status. -/
inductive FetchOutcome where
  | ok (data : RatesJson)
  | httpError (status : Nat)
deriving DecidableEq

/-- `typeof data[k] === 'number'`. -/
def isNumericAt (data : RatesJson) (k : String) : Bool :=
  match List.lookup k data with
  | some (.num _) => true
  | _ => false

/-- `fetchRates()`: `url` is what `getRatesUrl()` returned (`none` models a
nullish value; the empty string is also falsy).  Throws `ERR_NO_URL` before
any fetch, `ERR_FETCH_FAIL` on a non-ok response, and `Missing/invalid
rate: k` for the first supported currency `k` whose value is not a number;
otherwise resolves with the fetched data unchanged. -/
def fetchRates (url : Option String) (outcome : FetchOutcome) :
    Except RatesError RatesJson :=
  if url = none ∨ url = some "" then .error .noRateSource
  else
    match outcome with
    | .httpError status => .error (.fetchFailed status)
    | .ok data =>
      match supportedCurrencies.find? (fun k => !isNumericAt data k) with
      | some k => .error (.invalidRateData k)
      | none => .ok data

/-! ## Spec-side definition (for the refinement-style claim C2) -/

/-- Modelled from the spec's words: convert each matching record's `sum`
by dividing by `rate[currency]` (1 if absent), sum, multiply by
`rate[targetCurrency]` (1 if absent), round to 2 decimals. -/
def reportTotalSpec (tz : Int) (records : List CostRecord) (year month : Int)
    (targetCurrency : String) (rates : RateTable) : ℚ :=
  round2 ((((records.filter (periodMatches tz year month)).map
    (fun r => r.sum / ((List.lookup r.currency rates).getD 1))).sum)
    * ((List.lookup targetCurrency rates).getD 1))

/-- Update every entry of key `k` in a rate table to value `v`. -/
def setRate (k : String) (v : ℚ) : RateTable → RateTable
  | [] => []
  | (a, b) :: t => (if a = k then (k, v) else (a, b)) :: setRate k v t

/-! ## Helper lemmas -/

theorem lookup_mem_of_eq_some {α β : Type} [BEq α] [LawfulBEq α]
    {l : List (α × β)} {k : α} {v : β}
    (h : List.lookup k l = some v) : (k, v) ∈ l := by
  induction l with
  | nil => simp at h
  | cons p t ih =>
    obtain ⟨a, b⟩ := p
    rw [List.lookup_cons] at h
    cases hab : (k == a) with
    | true =>
      rw [hab] at h
      simp only [Option.some.injEq] at h
      subst h
      have : k = a := eq_of_beq hab
      subst this
      exact List.mem_cons_self _ _
    | false =>
      rw [hab] at h
      exact List.mem_cons_of_mem _ (ih h)

theorem foldl_addDiv_eq_sum (rates : RateTable) :
    ∀ (l : List CostRecord) (c : ℚ),
      l.foldl (fun acc item =>
        acc + item.sum / orOne (List.lookup item.currency rates)) c
      = c + (l.map (fun item =>
          item.sum / orOne (List.lookup item.currency rates))).sum := by
  intro l
  induction l with
  | nil => intro c; simp
  | cons x t ih =>
    intro c
    simp only [List.foldl_cons, List.map_cons, List.sum_cons, ih (c + _)]
    ring

theorem rat_floor_eq (q : ℚ) (z : ℤ) (h1 : (z : ℚ) ≤ q) (h2 : q < z + 1) :
    q.floor = z := by
  have h : ⌊q⌋ = z := Int.floor_eq_iff.mpr ⟨h1, h2⟩
  exact h

theorem round2_eq (x : ℚ) (z : ℤ) (h1 : (z : ℚ) ≤ x * 100 + 1/2)
    (h2 : x * 100 + 1/2 < z + 1) : round2 x = (z : ℚ) / 100 := by
  unfold round2
  rw [rat_floor_eq _ z h1 h2]

theorem round2_zero : round2 0 = 0 := by
  rw [round2_eq 0 0 (by norm_num) (by norm_num)]
  norm_num

theorem getReport_costs_of_filter_eq_nil (tz : Int) (recs : List CostRecord)
    (y m : Int) (c : String) (rates : RateTable)
    (hf : recs.filter (periodMatches tz y m) = []) :
    (getReport tz recs y m c rates).costs = []
    ∧ (getReport tz recs y m c rates).total.total = 0 := by
  have h1 : (getReport tz recs y m c rates).costs = [] := by
    simp [getReport, hf]
  have h2 : (getReport tz recs y m c rates).total.total = round2 0 := by
    simp [getReport, hf]
  exact ⟨h1, h2.trans round2_zero⟩

theorem getReport_costs_singleton (tz : Int) (r : CostRecord) (y m : Int)
    (c : String) (rates : RateTable) :
    (getReport tz [r] y m c rates).costs
      = if periodMatches tz y m r then [lineOf tz r] else [] := by
  by_cases hp : periodMatches tz y m r <;>
    simp [getReport, List.filter, hp]

theorem lookup_setRate_ne {c k : String} (hck : c ≠ k) (v : ℚ) :
    ∀ rates : RateTable, List.lookup c (setRate k v rates) = List.lookup c rates := by
  intro rates
  induction rates with
  | nil => rfl
  | cons p t ih =>
    obtain ⟨a, b⟩ := p
    by_cases hak : a = k
    · have h1 : (c == k) = false := by simp [hck]
      have h2 : (c == a) = false := by rw [hak]; exact h1
      simp only [setRate, if_pos hak, List.lookup_cons, h1, h2]
      exact ih
    · simp only [setRate, if_neg hak, List.lookup_cons]
      cases hca : (c == a) with
      | true => rfl
      | false => exact ih

theorem lookup_setRate_self {k : String} (v : ℚ) :
    ∀ {rates : RateTable} {q : ℚ}, List.lookup k rates = some q →
      List.lookup k (setRate k v rates) = some v := by
  intro rates
  induction rates with
  | nil => intro q h; simp at h
  | cons p t ih =>
    intro q h
    obtain ⟨a, b⟩ := p
    by_cases hak : a = k
    · subst hak
      simp [setRate, List.lookup_cons]
    · have hka : (k == a) = false := by simp [Ne.symm hak]
      simp only [setRate, if_neg hak, List.lookup_cons, hka] at h ⊢
      exact ih h

theorem orOne_setRate_zero {k : String} {rates : RateTable}
    (h0 : List.lookup k rates = some 0) (c : String) :
    orOne (List.lookup c (setRate k 1 rates)) = orOne (List.lookup c rates) := by
  by_cases hck : c = k
  · subst hck
    rw [lookup_setRate_self 1 h0, h0]
    simp [orOne]
  · rw [lookup_setRate_ne hck 1 rates]

/-! ## Claims -/

/-- **C2.** For every stored record set and rate table whose rates are all
nonzero (the claim's formula divides by the listed rates, so it presupposes
them nonzero; rate `0` is instead the subject of C9), `getReport`'s total
equals the spec formula: sum over the period-matching records of
`sum / rate[currency]` (rate 1 when the currency is absent), multiplied by
`rate[targetCurrency]` (1 when absent), rounded half-up to 2 decimals. -/
theorem getReport_total_formula (tz : Int) (recs : List CostRecord) (y m : Int)
    (tc : String) (rates : RateTable) (h : ∀ p ∈ rates, p.2 ≠ (0 : ℚ)) :
    (getReport tz recs y m tc rates).total.total
      = reportTotalSpec tz recs y m tc rates := by
  have horOne : ∀ c : String,
      orOne (List.lookup c rates) = (List.lookup c rates).getD 1 := by
    intro c
    cases hl : List.lookup c rates with
    | none => rfl
    | some q =>
      have hq : q ≠ 0 := h (c, q) (lookup_mem_of_eq_some hl)
      simp [orOne, hq]
  simp only [getReport, reportTotalSpec]
  rw [foldl_addDiv_eq_sum rates (recs.filter (periodMatches tz y m)) 0]
  rw [zero_add, horOne tc]
  congr 2
  refine congrArg List.sum (List.map_congr_left ?_)
  intro r _
  rw [horOne r.currency]

/-- Records of the claim C2 / spec §8 conversion-formula example. -/
def recC2a : CostRecord := ⟨1, 100, "USD", "food", "a", mkUTC 2025 9 12 23 59⟩

/-- Second record of the conversion-formula example. -/
def recC2b : CostRecord := ⟨2, 90, "EURO", "food", "b", mkUTC 2025 9 3 10 0⟩

/-- Rate table of the conversion-formula example: `{USD: 1, EURO: 0.9}`. -/
def ratesC2 : RateTable := [("USD", 1), ("EURO", 9/10)]

/-- **C2, witness.** Records `{100, USD}` and `{90, EURO}` with rates
`{USD: 1, EURO: 0.9}` and target currency EURO yield exactly 180. -/
theorem getReport_total_formula_witness :
    (getReport 0 [recC2a, recC2b] 2025 9 "EURO" ratesC2).total.total
      = reportTotalSpec 0 [recC2a, recC2b] 2025 9 "EURO" ratesC2
    ∧ reportTotalSpec 0 [recC2a, recC2b] 2025 9 "EURO" ratesC2 = 180 := by
  constructor
  · refine getReport_total_formula 0 [recC2a, recC2b] 2025 9 "EURO" ratesC2 ?_
    intro p hp
    simp only [ratesC2, List.mem_cons, List.not_mem_nil, or_false] at hp
    rcases hp with h | h <;> subst h <;> norm_num
  · have hfil : [recC2a, recC2b].filter (periodMatches 0 2025 9) = [recC2a, recC2b] := by
      decide
    simp only [reportTotalSpec, hfil, List.map_cons, List.map_nil,
      List.sum_cons, List.sum_nil]
    have e1 : recC2a.sum / ((List.lookup recC2a.currency ratesC2).getD 1) = 100 := by
      show (100 : ℚ) / ((some (1 : ℚ)).getD 1) = 100
      norm_num
    have e2 : recC2b.sum / ((List.lookup recC2b.currency ratesC2).getD 1) = 100 := by
      show (90 : ℚ) / ((some (9/10 : ℚ)).getD 1) = 100
      show (90 : ℚ) / (9/10) = 100
      norm_num
    rw [e1, e2]
    have e3 : ((100 : ℚ) + (100 + 0)) * ((List.lookup "EURO" ratesC2).getD 1) = 180 := by
      show ((100 : ℚ) + (100 + 0)) * ((some (9/10 : ℚ)).getD 1) = 180
      show ((100 : ℚ) + (100 + 0)) * (9/10) = 180
      norm_num
    rw [e3, round2_eq 180 18000 (by norm_num) (by norm_num)]
    norm_num

/-- **C9.** The per-record division in `getReport` never divides by the
stored rate when that rate is falsy: a currency mapped to `0` — not only an
absent currency — is treated as rate 1 (`x || 1`), both in the per-record
divisor and in the final target-currency multiplier, so replacing a zero
rate entry by 1 leaves the whole report unchanged.  (In this exact-rational
model the falsy numbers are `0` and absence; IEEE `NaN` has no `ℚ`
counterpart but flows through the same `|| 1` guard in the source.) -/
theorem getReport_zero_rate_as_one (tz : Int) (recs : List CostRecord)
    (y m : Int) (tc : String) (rates : RateTable) (k : String) :
    ((List.lookup k rates = some 0 ∨ List.lookup k rates = none) →
      orOne (List.lookup k rates) = 1)
    ∧ (List.lookup k rates = some 0 →
      getReport tz recs y m tc rates
        = getReport tz recs y m tc (setRate k 1 rates)) := by
  constructor
  · rintro (h | h) <;> rw [h] <;> simp [orOne]
  · intro h0
    have hOr := orOne_setRate_zero h0
    simp only [getReport]
    congr 1
    rw [foldl_addDiv_eq_sum rates, foldl_addDiv_eq_sum (setRate k 1 rates),
      zero_add, zero_add, hOr tc]
    have hmap : List.map
        (fun item => item.sum / orOne (List.lookup item.currency (setRate k 1 rates)))
        (List.filter (periodMatches tz y m) recs)
      = List.map (fun item => item.sum / orOne (List.lookup item.currency rates))
        (List.filter (periodMatches tz y m) recs) :=
      List.map_congr_left (fun r _ => by rw [hOr r.currency])
    rw [hmap]

/-- Rate table with a zero USD rate, used by the C9 witness. -/
def ratesC9 : RateTable := [("USD", 0), ("EURO", 2)]

/-- **C9, witness.** -/
theorem getReport_zero_rate_as_one_witness :
    orOne (List.lookup "USD" ratesC9) = 1
    ∧ getReport 0 [⟨1, 7, "USD", "food", "w", mkUTC 2025 9 5 0 0⟩] 2025 9
        "EURO" ratesC9
      = getReport 0 [⟨1, 7, "USD", "food", "w", mkUTC 2025 9 5 0 0⟩] 2025 9
        "EURO" (setRate "USD" 1 ratesC9) :=
  ⟨(getReport_zero_rate_as_one 0 [⟨1, 7, "USD", "food", "w", mkUTC 2025 9 5 0 0⟩]
      2025 9 "EURO" ratesC9 "USD").1 (Or.inl rfl),
   (getReport_zero_rate_as_one 0 [⟨1, 7, "USD", "food", "w", mkUTC 2025 9 5 0 0⟩]
      2025 9 "EURO" ratesC9 "USD").2 rfl⟩

/-- **C3, counterexample.** The claim says a successful `addCost` resolves to
the stored record carrying the store-assigned unique id.  At the concrete
input `{sum: 5, currency: "USD", category: "food", description: "x"}` on an
empty store with next key 1, the stored record receives id 1, but the
resolved object carries no `id` property at all (`none`), because IndexedDB
injects the generated key into the stored clone, not into the caller's
`item` object that `addCost` resolves with. -/
theorem addCost_id_counterexample :
    (addCost 0 ⟨5, "USD", "food", "x"⟩ ⟨[], 1⟩).2.id = none
    ∧ ((addCost 0 ⟨5, "USD", "food", "x"⟩ ⟨[], 1⟩).1.records.map CostRecord.id) = [1]
    ∧ (addCost 0 ⟨5, "USD", "food", "x"⟩ ⟨[], 1⟩).2.id ≠ some 1 := by
  decide

/-- **C3 (amended).** For every valid payload, a successful insert stamps
`recordedAt = now` and persists a record carrying the store-assigned id
`nextId` (fresh: distinct from every existing record's id whenever ids are
below the generator), and resolves to an object carrying the four payload
fields and the stamped timestamp — but not the assigned id, which exists
only on the persisted record. -/
theorem addCost_resolves_payload_and_timestamp (now : Int) (cost : CostPayload)
    (s : CostsStore) (h : ∀ r ∈ s.records, r.id < s.nextId) :
    (addCost now cost s).2.sum = cost.sum
    ∧ (addCost now cost s).2.currency = cost.currency
    ∧ (addCost now cost s).2.category = cost.category
    ∧ (addCost now cost s).2.description = cost.description
    ∧ (addCost now cost s).2.date = now
    ∧ (addCost now cost s).2.id = none
    ∧ (addCost now cost s).1.records
        = s.records ++ [(⟨s.nextId, cost.sum, cost.currency, cost.category,
            cost.description, now⟩ : CostRecord)]
    ∧ (∀ r ∈ s.records, r.id ≠ s.nextId) := by
  refine ⟨rfl, rfl, rfl, rfl, rfl, rfl, rfl, ?_⟩
  intro r hr
  exact Nat.ne_of_lt (h r hr)

/-- **C3, witness.** -/
theorem addCost_resolves_payload_and_timestamp_witness :
    (addCost 7 ⟨5, "USD", "food", "x"⟩ ⟨[], 1⟩).2.date = 7
    ∧ (addCost 7 ⟨5, "USD", "food", "x"⟩ ⟨[], 1⟩).2.id = none := by
  have h := addCost_resolves_payload_and_timestamp 7 ⟨5, "USD", "food", "x"⟩ ⟨[], 1⟩
    (by intro r hr; simp at hr)
  exact ⟨h.2.2.2.2.1, h.2.2.2.2.2.1⟩

/-- **C6.** Whenever zero stored records match the queried period, the report
has empty line items and total 0; in particular, after `clearAll` the report
for every period, target currency and rate table has empty line items and
total 0. -/
theorem getReport_empty_cases (tz : Int) (recs : List CostRecord) (y m : Int)
    (c : String) (rates : RateTable) (s : CostsStore) :
    (recs.filter (periodMatches tz y m) = [] →
      (getReport tz recs y m c rates).costs = []
      ∧ (getReport tz recs y m c rates).total.total = 0)
    ∧ ((getReport tz (clearAll s).records y m c rates).costs = []
      ∧ (getReport tz (clearAll s).records y m c rates).total.total = 0) := by
  refine ⟨fun hf => getReport_costs_of_filter_eq_nil tz recs y m c rates hf, ?_⟩
  exact getReport_costs_of_filter_eq_nil tz [] y m c rates rfl

/-- **C6, witness.** An August record queried for September matches nothing;
a cleared store reports empty for any period. -/
theorem getReport_empty_cases_witness :
    ((getReport 0 [⟨1, 5, "USD", "food", "x", mkUTC 2025 8 15 12 0⟩] 2025 9
        "USD" [("USD", 1)]).costs = []
      ∧ (getReport 0 [⟨1, 5, "USD", "food", "x", mkUTC 2025 8 15 12 0⟩] 2025 9
          "USD" [("USD", 1)]).total.total = 0)
    ∧ ((getReport 0 (clearAll ⟨[⟨1, 5, "USD", "food", "x", 0⟩], 2⟩).records 2025 9
        "USD" [("USD", 1)]).costs = []
      ∧ (getReport 0 (clearAll ⟨[⟨1, 5, "USD", "food", "x", 0⟩], 2⟩).records 2025 9
          "USD" [("USD", 1)]).total.total = 0) :=
  ⟨(getReport_empty_cases 0 [⟨1, 5, "USD", "food", "x", mkUTC 2025 8 15 12 0⟩]
      2025 9 "USD" [("USD", 1)] ⟨[], 1⟩).1 (by decide),
   (getReport_empty_cases 0 [] 2025 9 "USD" [("USD", 1)]
      ⟨[⟨1, 5, "USD", "food", "x", 0⟩], 2⟩).2⟩

/-- **C7.** `deleteDB` attempted while another open connection to the same
database exists rejects with the `Blocked` error and leaves the database,
with all its stored records, unchanged. -/
theorem deleteDB_blocked (name : String) (n : Nat) (slot : Option Database)
    (h : 0 < n) :
    deleteDB name n slot = (.error .blocked, slot) := by
  unfold deleteDB
  rw [if_pos h]

/-- **C7, witness.** -/
theorem deleteDB_blocked_witness :
    deleteDB "costsdb" 1 (some ⟨1, ["costs"], some ⟨[⟨1, 5, "USD", "food", "x", 0⟩], 2⟩⟩)
      = (.error .blocked,
         some ⟨1, ["costs"], some ⟨[⟨1, 5, "USD", "food", "x", 0⟩], 2⟩⟩) :=
  deleteDB_blocked "costsdb" 1
    (some ⟨1, ["costs"], some ⟨[⟨1, 5, "USD", "food", "x", 0⟩], 2⟩⟩) (by decide)

/-- **C8.** `getReport` is deterministic: two invocations with identical
stored records, identical arguments, an identical rate table (and the same
environment offset) produce identical reports — it is a pure function of
exactly these inputs, with no cache or hidden state in the embedding. -/
theorem getReport_deterministic (tz tz' : Int) (recs recs' : List CostRecord)
    (y y' m m' : Int) (c c' : String) (rates rates' : RateTable)
    (h0 : tz = tz') (h1 : recs = recs') (h2 : y = y') (h3 : m = m')
    (h4 : c = c') (h5 : rates = rates') :
    getReport tz recs y m c rates = getReport tz' recs' y' m' c' rates' := by
  subst h0 h1 h2 h3 h4 h5
  rfl

/-- **C8, witness.** -/
theorem getReport_deterministic_witness :
    getReport 0 [⟨1, 100, "USD", "food", "a", mkUTC 2025 9 12 23 59⟩] 2025 9
        "USD" [("USD", 1)]
      = getReport 0 [⟨1, 100, "USD", "food", "a", mkUTC 2025 9 12 23 59⟩] 2025 9
        "USD" [("USD", 1)] :=
  getReport_deterministic 0 0
    [⟨1, 100, "USD", "food", "a", mkUTC 2025 9 12 23 59⟩]
    [⟨1, 100, "USD", "food", "a", mkUTC 2025 9 12 23 59⟩]
    2025 2025 9 9 "USD" "USD" [("USD", 1)] [("USD", 1)]
    rfl rfl rfl rfl rfl rfl

/-- **C4.** `fetchRates` rejects with `NoRateSource` when no rates URL is
configured — before any fetch is attempted, i.e. uniformly in the fetch
outcome — and, with a URL configured and an ok response, rejects with
`InvalidRateData` when any of USD, ILS, GBP, EURO is missing or non-numeric
in the fetched JSON; it resolves only when all four are numeric, and then
with the fetched table itself, substituting no defaults. -/
theorem fetchRates_validation (url : Option String) (data : RatesJson) :
    ((url = none ∨ url = some "") → ∀ o : FetchOutcome,
      fetchRates url o = .error .noRateSource)
    ∧ (¬(url = none ∨ url = some "") →
      ((∀ k ∈ supportedCurrencies, isNumericAt data k = true) →
        fetchRates url (.ok data) = .ok data)
      ∧ ((∃ k ∈ supportedCurrencies, isNumericAt data k = false) →
        ∃ k ∈ supportedCurrencies, isNumericAt data k = false
          ∧ fetchRates url (.ok data) = .error (.invalidRateData k))) := by
  constructor
  · intro hurl o
    unfold fetchRates
    rw [if_pos hurl]
  · intro hurl
    constructor
    · intro hall
      have hnone : supportedCurrencies.find? (fun k => !isNumericAt data k) = none := by
        rw [List.find?_eq_none]
        intro x hx
        simp [hall x hx]
      simp only [fetchRates, if_neg hurl, hnone]
    · rintro ⟨k, hk, hbad⟩
      have hsome : (supportedCurrencies.find? (fun k => !isNumericAt data k)).isSome := by
        rw [List.find?_isSome]
        exact ⟨k, hk, by simp [hbad]⟩
      obtain ⟨k', hk'⟩ := Option.isSome_iff_exists.mp hsome
      refine ⟨k', List.mem_of_find?_eq_some hk', ?_, ?_⟩
      · have h := List.find?_some hk'
        simpa using h
      · simp only [fetchRates, if_neg hurl, hk']

/-- Well-formed demo rates JSON used by the C4 witness. -/
def demoRatesJson : RatesJson :=
  [("USD", .num 1), ("ILS", .num (37/10)), ("GBP", .num (79/100)),
   ("EURO", .num (9/10))]

/-- Malformed rates JSON (ILS absent, GBP a string) for the C4 witness. -/
def badRatesJson : RatesJson :=
  [("USD", .num 1), ("GBP", .str "0.79"), ("EURO", .num (9/10))]

/-- **C4, witness.** -/
theorem fetchRates_validation_witness :
    fetchRates none (.ok demoRatesJson) = .error .noRateSource
    ∧ fetchRates (some "https://rates.example/latest.json") (.ok demoRatesJson)
        = .ok demoRatesJson
    ∧ (∃ k ∈ supportedCurrencies, isNumericAt badRatesJson k = false
        ∧ fetchRates (some "https://rates.example/latest.json") (.ok badRatesJson)
          = .error (.invalidRateData k)) :=
  ⟨(fetchRates_validation none demoRatesJson).1 (Or.inl rfl) (.ok demoRatesJson),
   ((fetchRates_validation (some "https://rates.example/latest.json")
      demoRatesJson).2 (by decide)).1 (by decide),
   ((fetchRates_validation (some "https://rates.example/latest.json")
      badRatesJson).2 (by decide)).2 (by decide)⟩

/-- **C5.** `openCostsDB` is idempotent: whenever a call with some name and
version (≥ 1, else the engine throws) succeeds on a well-formed entry —
one whose `costs` collection, if the database exists, is present exactly
once — a second call with the same name and version returns the very same
database without modifying it, the result holds exactly one `costs`
collection (neither duplicated nor reset), and every previously stored
record survives (`costs` store carried over unchanged). -/
theorem openCostsDB_idempotent (name : String) (v : Nat) (slot : Option Database)
    (db₁ : Database) (hv : 1 ≤ v)
    (hwf : ∀ db₀, slot = some db₀ → db₀.storeNames.count "costs" = 1)
    (h1 : openCostsDB name v slot = .ok db₁) :
    openCostsDB name v (some db₁) = .ok db₁
    ∧ db₁.storeNames.count "costs" = 1
    ∧ (∀ db₀, slot = some db₀ → db₁.costs = db₀.costs) := by
  have hv0 : ¬(v = 0) := by omega
  cases slot with
  | none =>
    simp only [openCostsDB, if_neg hv0, Except.ok.injEq] at h1
    have hdb : db₁ = ⟨v, ["costs"], some ⟨[], 1⟩⟩ := by
      rw [← h1]; rfl
    subst hdb
    refine ⟨?_, by rfl, fun db₀ h => Option.noConfusion h⟩
    simp [openCostsDB, if_neg hv0]
  | some db₀ =>
    have hc : db₀.storeNames.count "costs" = 1 := hwf db₀ rfl
    have hm : "costs" ∈ db₀.storeNames := List.count_pos_iff.mp (by omega)
    simp only [openCostsDB, if_neg hv0] at h1
    by_cases hlt : v < db₀.version
    · rw [if_pos hlt] at h1
      exact Except.noConfusion h1
    · rw [if_neg hlt] at h1
      by_cases heq : v = db₀.version
      · rw [if_pos heq] at h1
        simp only [Except.ok.injEq] at h1
        subst h1
        refine ⟨?_, hc, fun db h => by cases h; rfl⟩
        simp only [openCostsDB, if_neg hv0]
        rw [if_neg hlt, if_pos heq]
      · rw [if_neg heq] at h1
        simp only [Except.ok.injEq] at h1
        have hdb : db₁ = { db₀ with version := v } := by
          rw [← h1]
          simp [runUpgrade, hm]
        subst hdb
        refine ⟨?_, hc, fun db h => by cases h; rfl⟩
        simp [openCostsDB, if_neg hv0]

/-- Existing database entry used by the C5 witness: version 1, one `costs`
collection holding one record. -/
def dbC5 : Database := ⟨1, ["costs"], some ⟨[⟨1, 5, "USD", "food", "x", 0⟩], 2⟩⟩

/-- **C5, witness.** Reopening an existing version-1 database succeeds,
keeps exactly one `costs` collection and all stored records. -/
theorem openCostsDB_idempotent_witness :
    openCostsDB "costsdb" 1 (some dbC5) = .ok dbC5
    ∧ dbC5.storeNames.count "costs" = 1
    ∧ dbC5.costs = dbC5.costs :=
  ⟨(openCostsDB_idempotent "costsdb" 1 (some dbC5) dbC5 (by decide)
      (fun db₀ h => by cases h; decide) rfl).1,
   (openCostsDB_idempotent "costsdb" 1 (some dbC5) dbC5 (by decide)
      (fun db₀ h => by cases h; decide) rfl).2.1,
   (openCostsDB_idempotent "costsdb" 1 (some dbC5) dbC5 (by decide)
      (fun db₀ h => by cases h; decide) rfl).2.2 dbC5 rfl⟩

/-- **C10.** For every stored record set and arguments, the module-version
`getReport` and the vanilla-version `getReport` agree on year, month and
the whole converted total, and their line-item lists agree pairwise on
`sum`, `currency`, `category` and `description` — the only difference is
the date representation (ISO string vs `{day}` object). -/
theorem getReport_module_vanilla_agree (tz : Int) (recs : List CostRecord)
    (y m : Int) (c : String) (rates : RateTable) :
    (getReport tz recs y m c rates).year = (vanillaGetReport tz recs y m c rates).year
    ∧ (getReport tz recs y m c rates).month = (vanillaGetReport tz recs y m c rates).month
    ∧ (getReport tz recs y m c rates).total = (vanillaGetReport tz recs y m c rates).total
    ∧ List.Forall₂ (fun (a : LineItem) (b : VanLineItem) =>
        a.sum = b.sum ∧ a.currency = b.currency ∧ a.category = b.category
          ∧ a.description = b.description)
      (getReport tz recs y m c rates).costs
      (vanillaGetReport tz recs y m c rates).costs := by
  have h : ∀ l : List CostRecord,
      List.Forall₂ (fun (a : LineItem) (b : VanLineItem) =>
        a.sum = b.sum ∧ a.currency = b.currency ∧ a.category = b.category
          ∧ a.description = b.description)
        (l.map (lineOf tz)) (l.map (vanLineOf tz)) := by
    intro l
    induction l with
    | nil => exact List.Forall₂.nil
    | cons x t ih => exact List.Forall₂.cons ⟨rfl, rfl, rfl, rfl⟩ ih
  exact ⟨rfl, rfl, rfl, h (recs.filter (periodMatches tz y m))⟩

/-- The record of the claim C1 / spec §8 period-filter example, stamped
2025-09-12T23:59:00Z. -/
def sepRecord : CostRecord := ⟨1, 100, "USD", "food", "demo", mkUTC 2025 9 12 23 59⟩

/-- A record stamped 2025-09-30T23:59:00Z, one minute before the UTC month
boundary; in an environment two hours east of UTC its local date is already
2025-10-01. -/
def boundaryRecord : CostRecord := ⟨1, 5, "USD", "food", "late", mkUTC 2025 9 30 23 59⟩

/-- **C1, counterexample.** The claim asserts membership is decided by the
UTC calendar date of `recordedAt`.  The source filter uses the local-time
getters `getFullYear()`/`getMonth()`: a record stamped 2025-09-30T23:59:00Z
— whose UTC calendar date is 2025-09 — is absent from the (2025, 9) report
in an environment with offset +120 minutes (e.g. a UTC+2 browser), because
its local date there is 2025-10-01. -/
theorem getReport_utc_filter_counterexample :
    getFullYear 0 boundaryRecord.date = 2025
    ∧ getMonth 0 boundaryRecord.date + 1 = 9
    ∧ (getReport 120 [boundaryRecord] 2025 9 "USD" [("USD", 1)]).costs = [] := by
  decide

/-- **C1 (amended).** `getReport` includes a record among its line items iff
the record's `recordedAt`, interpreted in the environment's local calendar
(UTC shifted by the environment offset `tz`), has the queried year and
month; under a UTC environment (`tz = 0`) this coincides with the UTC
interpretation, and then the record stamped 2025-09-12T23:59:00Z appears in
the report for (2025, 9) and in no other period's report. -/
theorem getReport_period_filter_local (tz : Int) (recs : List CostRecord)
    (y m : Int) (c : String) (rates : RateTable) :
    ((getReport tz recs y m c rates).costs
        = (recs.filter (periodMatches tz y m)).map (lineOf tz)
      ∧ (∀ r : CostRecord, periodMatches tz y m r = true ↔
          (getFullYear tz r.date = y ∧ getMonth tz r.date + 1 = m)))
    ∧ (∀ y' m' : Int, ∀ c' : String, ∀ rates' : RateTable,
        (getReport 0 [sepRecord] y' m' c' rates').costs ≠ []
          ↔ (y' = 2025 ∧ m' = 9)) := by
  refine ⟨⟨rfl, ?_⟩, ?_⟩
  · intro r
    simp [periodMatches]
  · intro y' m' c' rates'
    rw [getReport_costs_singleton]
    have h1 : getFullYear 0 sepRecord.date = 2025 := by decide
    have h2 : getMonth 0 sepRecord.date = 8 := by decide
    by_cases hp : periodMatches 0 y' m' sepRecord = true
    · rw [if_pos hp]
      simp only [periodMatches, Bool.and_eq_true, beq_iff_eq] at hp
      obtain ⟨ha, hb⟩ := hp
      rw [h1] at ha
      rw [h2] at hb
      constructor
      · intro _
        exact ⟨by omega, by omega⟩
      · intro _
        simp
    · rw [if_neg hp]
      have hp' : ¬(getFullYear 0 sepRecord.date = y'
          ∧ getMonth 0 sepRecord.date + 1 = m') := by
        intro hcon
        exact hp (by simp [periodMatches, hcon.1, hcon.2])
      constructor
      · intro hne
        exact absurd rfl hne
      · rintro ⟨hy, hm⟩
        refine absurd ⟨?_, ?_⟩ hp'
        · rw [h1, hy]
        · rw [h2, hm]
          decide

/-- **C1, witness.** Under a UTC environment, the 2025-09-12T23:59:00Z
record appears in the (2025, 9) report and not in the (2025, 10) report. -/
theorem getReport_period_filter_local_witness :
    (getReport 0 [sepRecord] 2025 9 "USD" [("USD", 1)]).costs ≠ []
    ∧ ¬((getReport 0 [sepRecord] 2025 10 "USD" [("USD", 1)]).costs ≠ []) :=
  ⟨((getReport_period_filter_local 0 [] 0 0 "" []).2 2025 9 "USD"
      [("USD", 1)]).mpr ⟨rfl, rfl⟩,
   fun h => absurd (((getReport_period_filter_local 0 [] 0 0 "" []).2 2025 10 "USD"
      [("USD", 1)]).mp h).2 (by decide)⟩

end CostManager
